import Mathlib

/-!
# SnapShot photobooth (`src/pb/src/App.js`)

A shallow embedding of the `App` component: the React state becomes the record
`Session`, each event handler becomes a function on it, and the browser
collaborators (image decoding, the 2D canvas, the webcam) are modelled
explicitly so that the handlers can be evaluated on concrete inputs.
-/

namespace Snapshot

/-! ## Values and images -/

/-- The JavaScript values that can end up inside `photos`: a string (normally a
data URL), `null` (what `getScreenshot` yields without a stream) or `undefined`
(what reading an array past its end yields). -/
inductive Value where
  | str (s : String)
  | null
  | undefined
  deriving DecidableEq, Repr

/-- One RGBA pixel, kept abstract as a number. -/
abbrev Pixel := Nat

/-- A decoded raster: `rows` holds `height` rows of `width` pixels. -/
structure Bitmap where
  width : Nat
  height : Nat
  rows : List (List Pixel)
  deriving DecidableEq, Repr

/-- The raster is rectangular with the advertised dimensions. -/
def Bitmap.WF (b : Bitmap) : Prop :=
  b.rows.length = b.height ∧ ∀ r ∈ b.rows, r.length = b.width

instance (b : Bitmap) : Decidable b.WF := by
  unfold Bitmap.WF
  exact inferInstance

/-- The pixel in column `x` of row `y` (transparent black outside the raster). -/
def Bitmap.pixel (b : Bitmap) (x y : Nat) : Pixel :=
  (b.rows.getD y []).getD x 0

/-- A freshly created canvas backing store: `w` by `h` transparent black. -/
def Bitmap.blank (w h : Nat) : Bitmap :=
  ⟨w, h, List.replicate h (List.replicate w 0)⟩

/-! ## The 2D canvas

Only `translate` and `scale` are ever applied, so the current transformation
matrix stays diagonal: `x ↦ a * x + e`, `y ↦ d * y + f`. -/

/-- The current transformation matrix of a 2D context (diagonal part and offset). -/
structure Transform where
  a : Int
  d : Int
  e : Int
  f : Int
  deriving DecidableEq, Repr

/-- The identity matrix a context starts with. -/
def Transform.identity : Transform := ⟨1, 1, 0, 0⟩

/-- The drawing state of `canvas.getContext("2d")`. `filter = none` is the
default CSS value `"none"`. -/
structure Context2D where
  canvas : Bitmap
  transform : Transform
  filter : Option String
  stack : List (Transform × Option String)
  deriving DecidableEq, Repr

/-- Result of `canvas.getContext("2d")` on a new canvas. -/
def getContext (canvas : Bitmap) : Context2D :=
  ⟨canvas, Transform.identity, none, []⟩

/-- Behaviour of `ctx.save()`: push the drawing state. -/
def Context2D.save (ctx : Context2D) : Context2D :=
  { ctx with stack := (ctx.transform, ctx.filter) :: ctx.stack }

/-- Behaviour of `ctx.restore()`: pop the drawing state (no effect on an empty stack). -/
def Context2D.restore (ctx : Context2D) : Context2D :=
  match ctx.stack with
  | [] => ctx
  | (t, fl) :: rest => { ctx with transform := t, filter := fl, stack := rest }

/-- Behaviour of `ctx.translate(tx, ty)`: post-multiply by a translation. -/
def Context2D.translate (ctx : Context2D) (tx ty : Int) : Context2D :=
  { ctx with transform :=
      { ctx.transform with
        e := ctx.transform.e + ctx.transform.a * tx
        f := ctx.transform.f + ctx.transform.d * ty } }

/-- Behaviour of `ctx.scale(sx, sy)`: post-multiply by a scaling. -/
def Context2D.scale (ctx : Context2D) (sx sy : Int) : Context2D :=
  { ctx with transform :=
      { ctx.transform with
        a := ctx.transform.a * sx
        d := ctx.transform.d * sy } }

/-- Behaviour of the assignment `ctx.filter = css`. -/
def Context2D.setFilter (ctx : Context2D) (css : String) : Context2D :=
  { ctx with filter := some css }

/-- The source cell whose image under `t ↦ a * t + e` covers destination cell
`X`, if there is one. For `a = 1` this is `X - e`, for `a = -1` it is
`e - 1 - X`; larger factors sample the nearest source cell. -/
def srcCoord (a e : Int) (X : Nat) : Option Nat :=
  if 0 < a then
    (if e ≤ (X : Int) then some (((X : Int) - e) / a).toNat else none)
  else if a < 0 then
    (if (X : Int) + 1 ≤ e then some ((e - 1 - (X : Int)) / (-a)).toNat else none)
  else none

/-- The colour destination cell `(X, Y)` receives from `img` placed at
`(dx, dy)` in user space, or `none` when the drawn image does not cover it. -/
def samplePixel (t : Transform) (img : Bitmap) (dx dy : Int) (X Y : Nat) : Option Pixel :=
  match srcCoord t.a (t.e + t.a * dx) X, srcCoord t.d (t.f + t.d * dy) Y with
  | some u, some v => if u < img.width ∧ v < img.height then some (img.pixel u v) else none
  | _, _ => none

/-- Behaviour of `ctx.drawImage(img, dx, dy)`: every canvas cell covered by the
transformed image takes the (filtered) source pixel, the others keep their
value. `cssFilter` is the browser's rendering of a CSS filter list. -/
def Context2D.drawImage (cssFilter : String → Bitmap → Bitmap) (ctx : Context2D)
    (img : Bitmap) (dx dy : Int) : Context2D :=
  let src := match ctx.filter with
    | none => img
    | some css => cssFilter css img
  { ctx with canvas :=
      { ctx.canvas with
        rows := (List.range ctx.canvas.height).map fun Y =>
          (List.range ctx.canvas.width).map fun X =>
            (samplePixel ctx.transform src dx dy X Y).getD (ctx.canvas.pixel X Y) } }

/-! ## The component -/

/-- The options of the filter selector. -/
inductive FilterId where
  | none | vintage | blackwhite | warm | cool | bright | dramatic | soft
  deriving DecidableEq, Repr

/-- The options of the layout selector. -/
inductive LayoutId where
  | classic | polaroid | vintage | modern | elegant
  deriving DecidableEq, Repr

/-- The `filters` table (`App.js` lines 15-24). -/
def filters : FilterId → String
  | .none => "none"
  | .vintage => "sepia(100%) contrast(1.2) brightness(1.1)"
  | .blackwhite => "grayscale(100%)"
  | .warm => "brightness(1.1) saturate(1.3) contrast(1.2)"
  | .cool => "hue-rotate(180deg) saturate(1.2)"
  | .bright => "brightness(1.3) contrast(1.2) saturate(1.4)"
  | .dramatic => "contrast(1.5) brightness(0.9) saturate(1.3)"
  | .soft => "brightness(1.2) contrast(0.9) saturate(0.8) blur(0.5px)"

/-- The browser services `processImage` relies on: `decode` is the outcome of
`img.src = v` (`some` fires `onload`, `none` fires `onerror`), `toDataURL` is
`canvas.toDataURL("image/png")`, `cssFilter` renders a CSS filter list. -/
structure Browser where
  decode : Value → Option Bitmap
  toDataURL : Bitmap → String
  cssFilter : String → Bitmap → Bitmap

/-- The body of `img.onload` up to `ctx.restore()` (`App.js` lines 31-49):
the canvas contents that get encoded. -/
def onloadCanvas (env : Browser) (img : Bitmap) (filterStyle : FilterId) : Bitmap :=
  let canvas := Bitmap.blank img.width img.height
  let ctx := getContext canvas
  let ctx := ctx.save
  let ctx := ctx.translate canvas.width 0
  let ctx := ctx.scale (-1) 1
  let ctx := if filterStyle ≠ FilterId.none then ctx.setFilter (filters filterStyle) else ctx
  let ctx := ctx.drawImage env.cssFilter img 0 0
  let ctx := ctx.restore
  ctx.canvas

/-- The value the promise of `processImage` resolves with (`App.js` lines
27-59). The promise has no reject path. -/
def processImage (env : Browser) (imageSrc : Value) (filterStyle : FilterId) : Value :=
  match env.decode imageSrc with
  | some img => Value.str (env.toDataURL (onloadCanvas env img filterStyle))
  | none => imageSrc

/-- The React state of `App` (`App.js` lines 7-11). -/
structure Session where
  polaroidCount : Nat
  photos : List Value
  currentFilter : FilterId
  layout : LayoutId
  draggedIndex : Option Nat
  deriving DecidableEq, Repr

/-- The state on first render. -/
def Session.init : Session :=
  ⟨3, [], FilterId.none, LayoutId.classic, none⟩

/-- The capture device: the frames successive `getScreenshot()` calls yield. -/
structure Webcam where
  frames : List Value
  deriving DecidableEq, Repr

/-- Behaviour of `webcamRef.current.getScreenshot()`: the next frame, or `null`
when the device has none to give. -/
def Webcam.getScreenshot (cam : Webcam) : Value × Webcam :=
  match cam.frames with
  | [] => (Value.null, cam)
  | fr :: rest => (fr, ⟨rest⟩)

/-- The handler `capture` (`App.js` lines 61-71) when the promise of
`processImage` resolves before any other event is handled: the click and the
continuation after `await` taken as one step. `captureClick` and
`captureResolve` below are the two halves on their own. -/
def capture (env : Browser) (s : Session) (cam : Webcam) : Session × Webcam :=
  if s.photos.length ≥ s.polaroidCount then
    ({ s with photos := [] }, cam)
  else
    let img := cam.getScreenshot.1
    let processedImg := processImage env img s.currentFilter
    ({ s with photos := s.photos ++ [processedImg] }, cam.getScreenshot.2)

/-- The handler `resetPhotos` (`App.js` lines 88-90). -/
def resetPhotos (s : Session) : Session :=
  { s with photos := [] }

/-- The handler `handleDragStart` (`App.js` lines 92-95). -/
def handleDragStart (s : Session) (index : Nat) : Session :=
  { s with draggedIndex := some index }

/-- The handler `handleDragOver` (`App.js` lines 97-100): no state change. -/
def handleDragOver (s : Session) : Session := s

/-- Behaviour of `Array.prototype.splice(start, deleteCount, ...items)` for
non-negative integer arguments: the array after the call. -/
def splice (xs : List Value) (start deleteCount : Nat) (items : List Value) : List Value :=
  xs.take start ++ items ++ xs.drop (start + deleteCount)

/-- The handler `handleDrop` (`App.js` lines 102-116). -/
def handleDrop (s : Session) (dropIndex : Nat) : Session :=
  match s.draggedIndex with
  | none => { s with draggedIndex := none }
  | some draggedIndex =>
    if draggedIndex = dropIndex then
      { s with draggedIndex := none }
    else
      let newPhotos := s.photos
      let draggedPhoto := newPhotos.getD draggedIndex Value.undefined
      let newPhotos := splice newPhotos draggedIndex 1 []
      let newPhotos := splice newPhotos dropIndex 0 [draggedPhoto]
      { s with photos := newPhotos, draggedIndex := none }

/-- The handler `handleDragEnd` (`App.js` lines 118-120). -/
def handleDragEnd (s : Session) : Session :=
  { s with draggedIndex := none }

/-- The `onChange` handler of the photo-count selector (`App.js` lines 163-168). -/
def selectCount (s : Session) (value : Nat) : Session :=
  { s with
    polaroidCount := value
    photos := if s.photos.length > value then s.photos.take value else s.photos }

/-- The `onChange` handler of the filter selector (`App.js` line 184). -/
def selectFilter (s : Session) (value : FilterId) : Session :=
  { s with currentFilter := value }

/-- The `onChange` handler of the layout selector (`App.js` line 202). -/
def selectLayout (s : Session) (value : LayoutId) : Session :=
  { s with layout := value }

/-! ## User events -/

/-- The user events the component reacts to. -/
inductive Event where
  | capture
  | clearAll
  | selectCount (k : Nat)
  | selectFilter (fl : FilterId)
  | selectLayout (l : LayoutId)
  | dragStart (i : Nat)
  | dragOver
  | drop (j : Nat)
  | dragEnd
  deriving DecidableEq, Repr

/-- Whether the rendered page offers the event in state `s`: the count
selector has the options 1 to 6, the clear button exists only while there are
photos, and drag events originate on a rendered photo of the strip. -/
def Event.offered (s : Session) : Event → Bool
  | .selectCount k => decide (1 ≤ k ∧ k ≤ 6)
  | .clearAll => decide (0 < s.photos.length)
  | .dragStart i => decide (i < s.photos.length)
  | .dragOver => decide (0 < s.photos.length)
  | .drop j => decide (j < s.photos.length)
  | _ => true

/-- One event handled to completion: a capture resolves before the next event. -/
def step (env : Browser) (w : Session × Webcam) : Event → Session × Webcam
  | .capture => capture env w.1 w.2
  | .clearAll => (resetPhotos w.1, w.2)
  | .selectCount k => (selectCount w.1 k, w.2)
  | .selectFilter fl => (selectFilter w.1 fl, w.2)
  | .selectLayout l => (selectLayout w.1 l, w.2)
  | .dragStart i => (handleDragStart w.1 i, w.2)
  | .dragOver => (handleDragOver w.1, w.2)
  | .drop j => (handleDrop w.1 j, w.2)
  | .dragEnd => (handleDragEnd w.1, w.2)

/-- Run a sequence of events; `none` when some event is not offered by the
page at the moment it is issued. -/
def run (env : Browser) (w : Session × Webcam) : List Event → Option (Session × Webcam)
  | [] => some w
  | ev :: rest => if ev.offered w.1 then run env (step env w ev) rest else none

/-- The states reachable from the first render by user events. -/
def Reachable (env : Browser) (cam : Webcam) (s : Session) : Prop :=
  ∃ evs cam1, run env (Session.init, cam) evs = some (s, cam1)

/-! ## The capture handler split at `await`

Line 70 runs after `await processImage(...)` and spreads the `photos` of the
render that created the handler, and the capture button is never disabled, so
a second click can be handled while an earlier capture is still in flight. -/

/-- A capture suspended at `await` (`App.js` line 69): the `photos` its
closure holds and the value its promise will resolve with. -/
structure InFlight where
  photos : List Value
  processedImg : Value
  deriving DecidableEq, Repr

/-- The component together with the capture device and the captures that have
not resumed yet. -/
structure Booth where
  session : Session
  cam : Webcam
  inFlight : List InFlight
  deriving DecidableEq, Repr

/-- A click on the capture button: `capture` up to `await` (`App.js` lines
62-69). The reset branch completes at once; otherwise the frame is pulled and
the continuation is suspended with the current `photos`. -/
def captureClick (env : Browser) (b : Booth) : Booth :=
  if b.session.photos.length ≥ b.session.polaroidCount then
    { b with session := { b.session with photos := [] } }
  else
    let img := b.cam.getScreenshot.1
    let processedImg := processImage env img b.session.currentFilter
    { b with
      cam := b.cam.getScreenshot.2
      inFlight := b.inFlight ++ [⟨b.session.photos, processedImg⟩] }

/-- The promise of the suspended capture number `k` resolves: the rest of
`capture` (`App.js` line 70) stores the closure's `photos` plus the new photo. -/
def captureResolve (b : Booth) (k : Nat) : Booth :=
  match b.inFlight[k]? with
  | none => b
  | some p =>
    { b with
      session := { b.session with photos := p.photos ++ [p.processedImg] }
      inFlight := b.inFlight.eraseIdx k }

/-- What can happen around the capture button: a click, or a promise resolving. -/
inductive CaptureStep where
  | click
  | resolve (k : Nat)
  deriving DecidableEq, Repr

/-- One step of a capture schedule. -/
def Booth.step (env : Browser) (b : Booth) : CaptureStep → Booth
  | .click => captureClick env b
  | .resolve k => captureResolve b k

/-- Run a capture schedule from left to right. -/
def Booth.run (env : Browser) (b : Booth) : List CaptureStep → Booth
  | [] => b
  | st :: rest => Booth.run env (Booth.step env b st) rest

/-- The schedule of `n` captures in which every promise resolves before the
next click. -/
def sequentialCaptures : Nat → List CaptureStep
  | 0 => []
  | n + 1 => CaptureStep.click :: CaptureStep.resolve 0 :: sequentialCaptures n

/-! ## Concrete inputs used to evaluate the handlers -/

/-- A browser in which no source decodes (every `img.src = v` fires `onerror`). -/
def deadBrowser : Browser := ⟨fun _ => none, fun _ => "", fun _ b => b⟩

/-- A one-row image with two distinct pixels. -/
def imgAB : Bitmap := ⟨2, 1, [[1, 2]]⟩

/-- The horizontal mirror image of `imgAB`. -/
def imgBA : Bitmap := ⟨2, 1, [[2, 1]]⟩

/-- A browser whose codec knows two images, stored under the URLs `"ab"` and `"ba"`. -/
def tinyBrowser : Browser where
  decode v :=
    if v = Value.str "ab" then some imgAB
    else if v = Value.str "ba" then some imgBA
    else none
  toDataURL b := if b = imgAB then "ab" else if b = imgBA then "ba" else ""
  cssFilter _ b := b

/-- A session holding `photos`, with target count `n` and recorded drag source `d`. -/
def sessionWith (photos : List Value) (n : Nat) (d : Option Nat) : Session :=
  ⟨n, photos, FilterId.none, LayoutId.classic, d⟩

/-- A capture device with three decodable frames ready. -/
def overlapCam : Webcam := ⟨[Value.str "ab", Value.str "ba", Value.str "ab"]⟩

/-- Four distinct photos. -/
def photosABCD : List Value :=
  [Value.str "A", Value.str "B", Value.str "C", Value.str "D"]

/-! ## Auxiliary lemmas -/

/-- Deleting one element with `splice` is `eraseIdx`. -/
theorem splice_delete_one (xs : List Value) (i : Nat) : splice xs i 1 [] = xs.eraseIdx i := by
  simp [splice, List.eraseIdx_eq_take_drop_succ]

/-- Inserting one element with `splice` at a position inside the array is `insertIdx`. -/
theorem splice_insert_one (xs : List Value) (j : Nat) (p : Value) (hj : j ≤ xs.length) :
    splice xs j 0 [p] = xs.insertIdx j p := by
  induction xs generalizing j with
  | nil =>
    have : j = 0 := by simpa using hj
    subst this
    simp [splice]
  | cons x xs ih =>
    cases j with
    | zero => simp [splice]
    | succ j =>
      have := ih j (by simpa using hj)
      simp [splice] at this ⊢
      exact this

/-- The array `handleDrop` stores when the guard on line 104 does not fire. -/
theorem handleDrop_photos (s : Session) (i j : Nat) (hd : s.draggedIndex = some i)
    (hij : i ≠ j) :
    (handleDrop s j).photos
      = splice (splice s.photos i 1 []) j 0 [s.photos.getD i Value.undefined] := by
  simp [handleDrop, hd, hij]

/-- The guard on line 104: without an active drag, or on the source itself, a
drop keeps `photos`. -/
theorem handleDrop_guard (s : Session) (j : Nat)
    (h : s.draggedIndex = none ∨ s.draggedIndex = some j) :
    (handleDrop s j).photos = s.photos ∧ (handleDrop s j).draggedIndex = none := by
  rcases h with h | h <;> simp [handleDrop, h]

/-- Taking an element out of a list and putting it in front permutes the list. -/
theorem cons_eraseIdx_perm (xs : List Value) (i : Nat) (hi : i < xs.length) :
    (xs.get ⟨i, hi⟩ :: xs.eraseIdx i).Perm xs := by
  induction xs generalizing i with
  | nil => simp at hi
  | cons x xs ih =>
    cases i with
    | zero => simp
    | succ i =>
      have h2 : i < xs.length := by simpa using hi
      have := ih i h2
      simp only [List.get_eq_getElem, List.getElem_cons_succ, List.eraseIdx_cons_succ] at this ⊢
      exact (List.Perm.swap x xs[i] (xs.eraseIdx i)).trans (this.cons x)

/-- A drop with source and target both inside the array permutes it. -/
theorem handleDrop_perm (s : Session) (i j : Nat) (hd : s.draggedIndex = some i)
    (hi : i < s.photos.length) (hj : j < s.photos.length) :
    (handleDrop s j).photos.Perm s.photos := by
  by_cases hij : i = j
  · subst hij
    simp [handleDrop, hd]
  · have hlen : (s.photos.eraseIdx i).length = s.photos.length - 1 :=
      List.length_eraseIdx_of_lt hi
    have hj2 : j ≤ (s.photos.eraseIdx i).length := by omega
    rw [handleDrop_photos s i j hd hij, splice_delete_one, splice_insert_one _ _ _ hj2]
    have hg : s.photos.getD i Value.undefined = s.photos.get ⟨i, hi⟩ := by
      simp [List.getD_eq_getElem?_getD, List.getElem?_eq_getElem hi]
    rw [hg]
    exact (List.perm_insertIdx _ _ hj2).trans (cons_eraseIdx_perm s.photos i hi)

/-- The append branch of `capture`. -/
theorem capture_not_full (env : Browser) (s : Session) (cam : Webcam)
    (h : s.photos.length < s.polaroidCount) :
    capture env s cam
      = ({ s with photos := s.photos ++ [processImage env cam.getScreenshot.1 s.currentFilter] },
          cam.getScreenshot.2) := by
  have h2 : ¬ (s.photos.length ≥ s.polaroidCount) := by omega
  simp [capture, h2]

/-- The reset branch of `capture`. -/
theorem capture_full (env : Browser) (s : Session) (cam : Webcam)
    (h : s.polaroidCount ≤ s.photos.length) :
    capture env s cam = ({ s with photos := [] }, cam) := by
  simp [capture, h]

/-- A click followed at once by its resolution is the one-step `capture`. -/
theorem captureResolve_captureClick (env : Browser) (s : Session) (cam : Webcam) :
    captureResolve (captureClick env ⟨s, cam, []⟩) 0
      = ⟨(capture env s cam).1, (capture env s cam).2, []⟩ := by
  by_cases h : s.polaroidCount ≤ s.photos.length
  · simp [captureClick, captureResolve, capture, h]
  · simp [captureClick, captureResolve, capture, h]

/-- As long as there is room and nothing is in flight, captures that each
resolve before the next click append the processed frames in order. -/
theorem sequentialCaptures_append (env : Browser) (fs rest : List Value) (s : Session)
    (cam : Webcam) (hcam : cam.frames = fs ++ rest)
    (hroom : s.photos.length + fs.length ≤ s.polaroidCount) :
    Booth.run env ⟨s, cam, []⟩ (sequentialCaptures fs.length)
      = ⟨{ s with photos := s.photos ++ fs.map fun fr => processImage env fr s.currentFilter },
          ⟨rest⟩, []⟩ := by
  induction fs generalizing s cam with
  | nil =>
    obtain ⟨frames⟩ := cam
    simp only [List.nil_append] at hcam
    subst hcam
    simp [sequentialCaptures, Booth.run]
  | cons fr fs ih =>
    obtain ⟨frames⟩ := cam
    simp only at hcam
    subst hcam
    simp only [List.length_cons] at hroom
    have hlt : s.photos.length < s.polaroidCount := by omega
    simp only [List.length_cons, sequentialCaptures, Booth.run, Booth.step]
    rw [captureResolve_captureClick, capture_not_full env s _ hlt]
    simp only [Webcam.getScreenshot, List.cons_append]
    rw [ih _ ⟨fs ++ rest⟩ rfl (by simp; omega)]
    simp

/-- When events are handled one at a time (every capture resolves before the
next event), every handler other than a drop with a stale source keeps
`photos.length ≤ polaroidCount`. -/
theorem step_keeps_bound (env : Browser) (w : Session × Webcam) (ev : Event)
    (hinv : w.1.photos.length ≤ w.1.polaroidCount) (hoff : ev.offered w.1 = true)
    (hsrc : ∀ j i, ev = Event.drop j → w.1.draggedIndex = some i → i < w.1.photos.length) :
    (step env w ev).1.photos.length ≤ (step env w ev).1.polaroidCount := by
  obtain ⟨s, cam⟩ := w
  simp only at hinv hsrc
  cases ev with
  | capture =>
    simp only [step]
    by_cases hfull : s.polaroidCount ≤ s.photos.length
    · rw [capture_full env s cam hfull]
      simp
    · rw [capture_not_full env s cam (by omega)]
      simp
      omega
  | clearAll => simp [step, resetPhotos]
  | selectCount k =>
    simp only [step, selectCount]
    split
    · simp
    · omega
  | selectFilter fl => simpa [step, selectFilter] using hinv
  | selectLayout l => simpa [step, selectLayout] using hinv
  | dragStart i => simpa [step, handleDragStart] using hinv
  | dragOver => simpa [step, handleDragOver] using hinv
  | drop j =>
    have hj : j < s.photos.length := by simpa [Event.offered] using hoff
    simp only [step]
    cases hd : s.draggedIndex with
    | none => simpa [handleDrop, hd] using hinv
    | some i =>
      have hi := hsrc j i rfl hd
      have hlen := (handleDrop_perm s i j hd hi hj).length_eq
      have hcount : (handleDrop s j).polaroidCount = s.polaroidCount := by
        simp only [handleDrop, hd]
        split <;> rfl
      rw [hlen, hcount]
      exact hinv
  | dragEnd => simpa [step, handleDragEnd] using hinv

/-- The flipped column: under `x ↦ W - x` destination cell `X` shows source cell `W - 1 - X`. -/
theorem srcCoord_flip (W X : Nat) (h : X < W) :
    srcCoord (-1) ((W : Int) + (-1) * 0) X = some (W - 1 - X) := by
  have h1 : ¬ ((0 : Int) < -1) := by decide
  have h2 : ((-1 : Int) < 0) := by decide
  have h3 : (X : Int) + 1 ≤ (W : Int) + (-1) * 0 := by omega
  have h4 : ((W : Int) + (-1) * 0 - 1 - (X : Int)) / (-(-1)) = ((W - 1 - X : Nat) : Int) := by
    have h5 : (-(-1) : Int) = 1 := by decide
    rw [h5, Int.ediv_one]
    omega
  simp only [srcCoord, h1, h2, h3, h4, if_true, if_false, Int.toNat_ofNat]

/-- The untouched row axis: destination row `Y` shows source row `Y`. -/
theorem srcCoord_id (Y : Nat) : srcCoord 1 ((0 : Int) + 1 * 0) Y = some Y := by
  simp [srcCoord]

/-- The canvas `img.onload` produces for the filter `"none"`, cell by cell. -/
theorem onloadCanvas_none_eq (env : Browser) (img : Bitmap) :
    onloadCanvas env img FilterId.none
      = ⟨img.width, img.height,
          (List.range img.height).map fun Y =>
            (List.range img.width).map fun X => img.pixel (img.width - 1 - X) Y⟩ := by
  simp only [onloadCanvas, getContext, Context2D.save, Context2D.translate, Context2D.scale,
    Context2D.drawImage, Context2D.restore, Bitmap.blank, Transform.identity, ne_eq,
    not_true_eq_false, if_false]
  congr 1
  apply List.map_congr_left
  intro Y hY
  apply List.map_congr_left
  intro X hX
  have hX2 : X < img.width := List.mem_range.mp hX
  have hY2 : Y < img.height := List.mem_range.mp hY
  have hw : img.width - 1 - X < img.width := by omega
  have e1 : ((0 : Int) + 1 * (img.width : Int)) = (img.width : Int) := by omega
  simp only [samplePixel, Int.mul_neg, Int.one_mul, Int.mul_one, e1]
  have := srcCoord_flip img.width X hX2
  have := srcCoord_id Y
  simp_all

/-- Reading a cell of a raster given as a table. -/
theorem pixel_of_table (W H : Nat) (g : Nat → Nat → Pixel) (x y : Nat) (hx : x < W)
    (hy : y < H) :
    Bitmap.pixel ⟨W, H, (List.range H).map fun Y => (List.range W).map fun X => g X Y⟩ x y
      = g x y := by
  simp [Bitmap.pixel, List.getD_eq_getElem?_getD, List.getElem?_eq_getElem, hx, hy]

/-- A rectangular raster is the table of its own cells. -/
theorem table_of_pixels (b : Bitmap) (hwf : b.WF) :
    (⟨b.width, b.height,
        (List.range b.height).map fun Y => (List.range b.width).map fun X => b.pixel X Y⟩ : Bitmap)
      = b := by
  obtain ⟨w, h, rows⟩ := b
  obtain ⟨hh, hw⟩ := hwf
  simp only at hh hw
  congr 1
  apply List.ext_getElem
  · simp [hh]
  · intro y h1 h2
    have hy : y < rows.length := h2
    have hrow : rows[y].length = w := hw _ (List.getElem_mem hy)
    simp only [List.getElem_map, List.getElem_range]
    apply List.ext_getElem
    · simp [hrow]
    · intro x h3 h4
      simp [Bitmap.pixel, List.getD_eq_getElem?_getD, List.getElem?_eq_getElem, hy, h4]

/-- Running the `onload` body twice with the filter `"none"` gives back the raster. -/
theorem onloadCanvas_none_twice (env : Browser) (img : Bitmap) (hwf : img.WF) :
    onloadCanvas env (onloadCanvas env img FilterId.none) FilterId.none = img := by
  rw [onloadCanvas_none_eq env (onloadCanvas env img FilterId.none)]
  rw [onloadCanvas_none_eq env img]
  simp only
  have key : ((List.range img.height).map fun Y => (List.range img.width).map fun X =>
        Bitmap.pixel ⟨img.width, img.height,
          (List.range img.height).map fun Y => (List.range img.width).map fun X =>
            img.pixel (img.width - 1 - X) Y⟩ (img.width - 1 - X) Y)
      = ((List.range img.height).map fun Y => (List.range img.width).map fun X =>
          img.pixel X Y) := by
    apply List.map_congr_left
    intro Y hY
    apply List.map_congr_left
    intro X hX
    have hX2 : X < img.width := List.mem_range.mp hX
    have hY2 : Y < img.height := List.mem_range.mp hY
    rw [pixel_of_table img.width img.height (fun X Y => img.pixel (img.width - 1 - X) Y)
      (img.width - 1 - X) Y (by omega) hY2]
    have hflip : img.width - 1 - (img.width - 1 - X) = X := by omega
    show img.pixel (img.width - 1 - (img.width - 1 - X)) Y = img.pixel X Y
    rw [hflip]
  rw [key]
  exact table_of_pixels img hwf

/-! ## Verified properties -/

/-- C1: in a state whose collection is full (`photos.length = polaroidCount`),
`capture` empties `photos`, leaves the capture device untouched (no frame is
pulled, nothing is appended) and keeps `polaroidCount`, `currentFilter` and
`layout`. -/
theorem capture_when_full (env : Browser) (s : Session) (cam : Webcam)
    (hfull : s.photos.length = s.polaroidCount) :
    (capture env s cam).1.photos = []
      ∧ (capture env s cam).2 = cam
      ∧ (capture env s cam).1.polaroidCount = s.polaroidCount
      ∧ (capture env s cam).1.currentFilter = s.currentFilter
      ∧ (capture env s cam).1.layout = s.layout := by
  simp [capture, hfull]

theorem capture_when_full_witness :
    (sessionWith photosABCD 4 none).photos.length = (sessionWith photosABCD 4 none).polaroidCount
      ∧ (capture deadBrowser (sessionWith photosABCD 4 none) ⟨[Value.str "E"]⟩).1.photos = []
      ∧ (capture deadBrowser (sessionWith photosABCD 4 none) ⟨[Value.str "E"]⟩).2
          = ⟨[Value.str "E"]⟩ :=
  have h := capture_when_full deadBrowser (sessionWith photosABCD 4 none) ⟨[Value.str "E"]⟩
    (by decide)
  ⟨by decide, h.1, h.2.1⟩

/-- C2: for distinct in-range indices `i` and `j`, drag-start at `i` followed
by a drop at `j` stores the array obtained by removing the element at `i` and
reinserting it at position `j` of the remainder: the moved photo is at index
`j`, the other photos keep their order, and the length is unchanged. -/
theorem drop_relocates (s : Session) (i j : Nat)
    (hi : i < s.photos.length) (hj : j < s.photos.length) (hij : i ≠ j) :
    (handleDrop (handleDragStart s i) j).photos
        = (s.photos.eraseIdx i).insertIdx j (s.photos.get ⟨i, hi⟩)
      ∧ (handleDrop (handleDragStart s i) j).photos[j]? = some (s.photos.get ⟨i, hi⟩)
      ∧ (handleDrop (handleDragStart s i) j).photos.eraseIdx j = s.photos.eraseIdx i
      ∧ (handleDrop (handleDragStart s i) j).photos.length = s.photos.length := by
  have hlen : (s.photos.eraseIdx i).length = s.photos.length - 1 := List.length_eraseIdx_of_lt hi
  have hj2 : j ≤ (s.photos.eraseIdx i).length := by omega
  have hp : (handleDrop (handleDragStart s i) j).photos
        = (s.photos.eraseIdx i).insertIdx j (s.photos.get ⟨i, hi⟩) := by
    rw [handleDrop_photos _ i j rfl hij]
    simp only [handleDragStart]
    rw [splice_delete_one, splice_insert_one _ _ _ hj2]
    congr 1
    simp [List.getD_eq_getElem?_getD, List.getElem?_eq_getElem hi]
  rw [hp]
  refine ⟨rfl, ?_, ?_, ?_⟩
  · rw [List.getElem?_eq_getElem (by rw [List.length_insertIdx _ _ hj2]; omega)]
    rw [List.getElem_insertIdx_self _ _ _ hj2]
  · exact List.eraseIdx_insertIdx j _
  · rw [List.length_insertIdx _ _ hj2]; omega

theorem drop_relocates_witness :
    (0 < (sessionWith photosABCD 4 none).photos.length
        ∧ 2 < (sessionWith photosABCD 4 none).photos.length ∧ 0 ≠ 2)
      ∧ (3 < (sessionWith photosABCD 4 none).photos.length
        ∧ 0 < (sessionWith photosABCD 4 none).photos.length ∧ 3 ≠ 0)
      ∧ (handleDrop (handleDragStart (sessionWith photosABCD 4 none) 0) 2).photos
        = [Value.str "B", Value.str "C", Value.str "A", Value.str "D"]
      ∧ (handleDrop (handleDragStart (sessionWith photosABCD 4 none) 3) 0).photos
        = [Value.str "D", Value.str "A", Value.str "B", Value.str "C"] :=
  ⟨by decide, by decide,
   (drop_relocates (sessionWith photosABCD 4 none) 0 2 (by decide) (by decide)
      (by decide)).1.trans (by decide),
   (drop_relocates (sessionWith photosABCD 4 none) 3 0 (by decide) (by decide)
      (by decide)).1.trans (by decide)⟩

/-- C3: selecting a photo count `k` in 1..6 with `k < photos.length` sets
`polaroidCount` to `k` and replaces `photos` by its first `k` elements in
their original order. -/
theorem selectCount_truncates (s : Session) (k : Nat) (_hk : 1 ≤ k ∧ k ≤ 6)
    (hlt : k < s.photos.length) :
    (selectCount s k).polaroidCount = k
      ∧ (selectCount s k).photos = s.photos.take k
      ∧ (selectCount s k).photos.length = k
      ∧ ∀ n, n < k → (selectCount s k).photos[n]? = s.photos[n]? := by
  have hp : (selectCount s k).photos = s.photos.take k := by simp [selectCount, hlt]
  refine ⟨rfl, hp, ?_, ?_⟩
  · rw [hp, List.length_take]; omega
  · intro n hn
    rw [hp, List.getElem?_take_of_lt hn]

theorem selectCount_truncates_witness :
    (1 ≤ 2 ∧ 2 ≤ 6)
      ∧ 2 < (sessionWith photosABCD 4 none).photos.length
      ∧ (selectCount (sessionWith photosABCD 4 none) 2).polaroidCount = 2
      ∧ (selectCount (sessionWith photosABCD 4 none) 2).photos
          = [Value.str "A", Value.str "B"] :=
  have h := selectCount_truncates (sessionWith photosABCD 4 none) 2 (by decide) (by decide)
  ⟨by decide, by decide, h.1, h.2.1.trans (by decide)⟩

/-- C4 (violated by the code): the event sequence capture, capture, capture,
drag-start on photo 2, select count 1, drop on photo 0 leads from the first
render to a state with two entries in `photos` and `polaroidCount = 1`, so a
reachable state breaks `photos.length ≤ polaroidCount`. -/
theorem stale_drag_breaks_bound :
    Reachable deadBrowser ⟨[Value.str "A", Value.str "B", Value.str "C"]⟩
        ⟨1, [Value.undefined, Value.str "A"], FilterId.none, LayoutId.classic, none⟩
      ∧ ¬ ((⟨1, [Value.undefined, Value.str "A"], FilterId.none, LayoutId.classic, none⟩
            : Session).photos.length
          ≤ (⟨1, [Value.undefined, Value.str "A"], FilterId.none, LayoutId.classic, none⟩
            : Session).polaroidCount) :=
  ⟨⟨[Event.capture, Event.capture, Event.capture, Event.dragStart 2, Event.selectCount 1,
      Event.drop 0], ⟨[]⟩, by decide⟩, by decide⟩

/-- C5: a drop whose recorded source index and whose target index are both
positions of `photos` stores a permutation of `photos`: same length and every
value occurs as often as before. -/
theorem drop_perm (s : Session) (i j : Nat) (hd : s.draggedIndex = some i)
    (hi : i < s.photos.length) (hj : j < s.photos.length) :
    (handleDrop s j).photos.Perm s.photos
      ∧ (handleDrop s j).photos.length = s.photos.length
      ∧ ∀ p : Value, (handleDrop s j).photos.count p = s.photos.count p := by
  have hperm := handleDrop_perm s i j hd hi hj
  exact ⟨hperm, hperm.length_eq, fun p => hperm.count_eq p⟩

theorem drop_perm_witness :
    (sessionWith photosABCD 4 (some 1)).draggedIndex = some 1
      ∧ 1 < (sessionWith photosABCD 4 (some 1)).photos.length
      ∧ 3 < (sessionWith photosABCD 4 (some 1)).photos.length
      ∧ (handleDrop (sessionWith photosABCD 4 (some 1)) 3).photos.Perm photosABCD
      ∧ (handleDrop (sessionWith photosABCD 4 (some 1)) 3).photos.length = 4 :=
  have h := drop_perm (sessionWith photosABCD 4 (some 1)) 1 3 rfl (by decide) (by decide)
  ⟨rfl, by decide, by decide, h.1, h.2.1⟩

/-- C6 (violated by the code): with one photo and a recorded source index 2
that is out of range, a drop on photo 0 stores `[undefined, A]` instead of
leaving `photos` unchanged. -/
theorem drop_stale_source_grows :
    (handleDrop (sessionWith [Value.str "A"] 1 (some 2)) 0).photos
        = [Value.undefined, Value.str "A"]
      ∧ (handleDrop (sessionWith [Value.str "A"] 1 (some 2)) 0).photos
        ≠ (sessionWith [Value.str "A"] 1 (some 2)).photos := by
  decide

/-- C7 (as stated, refuted): with target count 2 and an empty collection, two
successful captures clicked back to back, both resolving afterwards, leave a
single photo (the second frame, processed) instead of two, and a further
capture appends instead of clearing. -/
theorem overlapping_captures_lose_photo :
    (Booth.run tinyBrowser ⟨sessionWith [] 2 none, overlapCam, []⟩
        [CaptureStep.click, CaptureStep.click, CaptureStep.resolve 0,
          CaptureStep.resolve 0]).session.photos = [Value.str "ab"]
      ∧ (Booth.run tinyBrowser ⟨sessionWith [] 2 none, overlapCam, []⟩
        [CaptureStep.click, CaptureStep.click, CaptureStep.resolve 0,
          CaptureStep.resolve 0]).inFlight = []
      ∧ (Booth.run tinyBrowser ⟨sessionWith [] 2 none, overlapCam, []⟩
        [CaptureStep.click, CaptureStep.click, CaptureStep.resolve 0,
          CaptureStep.resolve 0]).session.photos.length ≠ 2
      ∧ (Booth.run tinyBrowser ⟨sessionWith [] 2 none, overlapCam, []⟩
        [CaptureStep.click, CaptureStep.click, CaptureStep.resolve 0, CaptureStep.resolve 0,
          CaptureStep.click, CaptureStep.resolve 0]).session.photos
          = [Value.str "ab", Value.str "ba"] := by
  decide

/-- C7 (amended): for a target count `n` in 1..6 and an empty collection with
nothing in flight, `n` captures of the frames `fs`, each resolving before the
next click, leave `photos` equal to the processed frames in capture order
(length `n`) with nothing in flight, and one more click empties `photos`
without pulling a frame or suspending a capture. -/
theorem sequential_captures_fill_then_reset (env : Browser) (s : Session) (cam : Webcam)
    (fs rest : List Value) (n : Nat) (_hn : 1 ≤ n ∧ n ≤ 6)
    (hempty : s.photos = []) (hcount : s.polaroidCount = n)
    (hlen : fs.length = n) (hcam : cam.frames = fs ++ rest) :
    (Booth.run env ⟨s, cam, []⟩ (sequentialCaptures n)).session.photos
        = fs.map (fun fr => processImage env fr s.currentFilter)
      ∧ (Booth.run env ⟨s, cam, []⟩ (sequentialCaptures n)).session.photos.length = n
      ∧ (Booth.run env ⟨s, cam, []⟩ (sequentialCaptures n)).cam = ⟨rest⟩
      ∧ (Booth.run env ⟨s, cam, []⟩ (sequentialCaptures n)).inFlight = []
      ∧ (captureClick env (Booth.run env ⟨s, cam, []⟩ (sequentialCaptures n))).session.photos
          = []
      ∧ (captureClick env
          (Booth.run env ⟨s, cam, []⟩ (sequentialCaptures n))).session.photos.length = 0
      ∧ (captureClick env (Booth.run env ⟨s, cam, []⟩ (sequentialCaptures n))).cam = ⟨rest⟩
      ∧ (captureClick env (Booth.run env ⟨s, cam, []⟩ (sequentialCaptures n))).inFlight
          = [] := by
  subst hlen
  have h := sequentialCaptures_append env fs rest s cam hcam (by simp [hempty, hcount])
  rw [h]
  simp [hempty, captureClick, hcount]

theorem sequential_captures_fill_then_reset_witness :
    (1 ≤ 2 ∧ 2 ≤ 6)
      ∧ (sessionWith [] 2 none).photos = []
      ∧ (sessionWith [] 2 none).polaroidCount = 2
      ∧ [Value.str "ab", Value.str "ba"].length = 2
      ∧ (Booth.run tinyBrowser
          ⟨sessionWith [] 2 none, ⟨[Value.str "ab", Value.str "ba", Value.str "ab"]⟩, []⟩
          (sequentialCaptures 2)).session.photos = [Value.str "ba", Value.str "ab"]
      ∧ (captureClick tinyBrowser (Booth.run tinyBrowser
          ⟨sessionWith [] 2 none, ⟨[Value.str "ab", Value.str "ba", Value.str "ab"]⟩, []⟩
          (sequentialCaptures 2))).session.photos.length = 0 :=
  have h := sequential_captures_fill_then_reset tinyBrowser (sessionWith [] 2 none)
    ⟨[Value.str "ab", Value.str "ba", Value.str "ab"]⟩
    [Value.str "ab", Value.str "ba"] [Value.str "ab"] 2 (by decide) rfl rfl rfl rfl
  ⟨by decide, rfl, rfl, rfl, h.1.trans (by decide), h.2.2.2.2.2.1⟩

/-- C8 (as stated, refuted): in the empty session with target count 3, a
`getScreenshot` that yields `null` makes `capture` store `[null]`, which is
not the previous `photos`. -/
theorem capture_null_frame_not_noop :
    (sessionWith [] 3 none).photos.length < (sessionWith [] 3 none).polaroidCount
      ∧ (Webcam.getScreenshot ⟨[]⟩).1 = Value.null
      ∧ (capture deadBrowser (sessionWith [] 3 none) ⟨[]⟩).1.photos = [Value.null]
      ∧ (capture deadBrowser (sessionWith [] 3 none) ⟨[]⟩).1.photos
          ≠ (sessionWith [] 3 none).photos := by
  decide

/-- C8 (amended): in a non-full state, when `getScreenshot` yields `null`,
`capture` appends exactly one entry, the value `processImage` resolves with
for `null`; that entry is `null` itself when `null` does not decode. -/
theorem capture_null_frame_appends (env : Browser) (s : Session) (cam : Webcam)
    (hroom : s.photos.length < s.polaroidCount) (hnull : cam.getScreenshot.1 = Value.null) :
    (capture env s cam).1.photos = s.photos ++ [processImage env Value.null s.currentFilter]
      ∧ (capture env s cam).1.photos.length = s.photos.length + 1
      ∧ (env.decode Value.null = none →
          (capture env s cam).1.photos = s.photos ++ [Value.null]) := by
  rw [capture_not_full env s cam hroom, hnull]
  refine ⟨rfl, by simp, ?_⟩
  intro hdec
  simp [processImage, hdec]

theorem capture_null_frame_appends_witness :
    (sessionWith [Value.str "ba"] 3 none).photos.length
        < (sessionWith [Value.str "ba"] 3 none).polaroidCount
      ∧ (Webcam.getScreenshot ⟨[]⟩).1 = Value.null
      ∧ tinyBrowser.decode Value.null = none
      ∧ (capture tinyBrowser (sessionWith [Value.str "ba"] 3 none) ⟨[]⟩).1.photos
        = [Value.str "ba", Value.null]
      ∧ (capture tinyBrowser (sessionWith [Value.str "ba"] 3 none) ⟨[]⟩).1.photos.length = 2 :=
  have h := capture_null_frame_appends tinyBrowser (sessionWith [Value.str "ba"] 3 none) ⟨[]⟩
    (by decide) rfl
  ⟨by decide, rfl, by decide, h.2.2 (by decide), h.2.1⟩

/-- C9: when a frame fails to decode, `processImage` resolves with the frame
itself whatever the filter, and a `capture` of that frame in a non-full state
appends exactly that one value at the end of `photos`. -/
theorem decode_failure_fallback (env : Browser) (frame : Value)
    (hdec : env.decode frame = none) :
    (∀ fl : FilterId, processImage env frame fl = frame)
      ∧ ∀ (s : Session) (cam : Webcam), s.photos.length < s.polaroidCount →
          cam.getScreenshot.1 = frame →
          (capture env s cam).1.photos = s.photos ++ [frame]
            ∧ (capture env s cam).1.photos.length = s.photos.length + 1 := by
  have hp : ∀ fl : FilterId, processImage env frame fl = frame := by
    intro fl
    simp [processImage, hdec]
  refine ⟨hp, ?_⟩
  intro s cam hroom hfr
  rw [capture_not_full env s cam hroom, hfr, hp]
  simp

theorem decode_failure_fallback_witness :
    tinyBrowser.decode (Value.str "zz") = none
      ∧ processImage tinyBrowser (Value.str "zz") FilterId.vintage = Value.str "zz"
      ∧ (capture tinyBrowser (sessionWith [Value.str "ba"] 3 none)
          ⟨[Value.str "zz"]⟩).1.photos = [Value.str "ba", Value.str "zz"] :=
  have h := decode_failure_fallback tinyBrowser (Value.str "zz") (by decide)
  ⟨by decide, h.1 FilterId.vintage,
    (h.2 (sessionWith [Value.str "ba"] 3 none) ⟨[Value.str "zz"]⟩ (by decide) rfl).1⟩

/-- C10: for a source that decodes to a rectangular `W × H` raster,
`processImage` with the filter `"none"` resolves with the encoding of a
`W × H` raster whose cell `(x, y)` is the input cell `(W - 1 - x, y)`; when
that encoding decodes back to the same raster, applying `processImage` a
second time yields the encoding of the original raster. -/
theorem processImage_none_mirrors (env : Browser) (imageSrc : Value) (img : Bitmap)
    (hdec : env.decode imageSrc = some img) (hwf : img.WF) :
    processImage env imageSrc FilterId.none
        = Value.str (env.toDataURL (onloadCanvas env img FilterId.none))
      ∧ (onloadCanvas env img FilterId.none).width = img.width
      ∧ (onloadCanvas env img FilterId.none).height = img.height
      ∧ (onloadCanvas env img FilterId.none).WF
      ∧ (∀ x y, x < img.width → y < img.height →
          (onloadCanvas env img FilterId.none).pixel x y = img.pixel (img.width - 1 - x) y)
      ∧ (env.decode (Value.str (env.toDataURL (onloadCanvas env img FilterId.none)))
            = some (onloadCanvas env img FilterId.none) →
          processImage env (processImage env imageSrc FilterId.none) FilterId.none
            = Value.str (env.toDataURL img)) := by
  have hp : processImage env imageSrc FilterId.none
        = Value.str (env.toDataURL (onloadCanvas env img FilterId.none)) := by
    simp [processImage, hdec]
  refine ⟨hp, ?_, ?_, ?_, ?_, ?_⟩
  · rw [onloadCanvas_none_eq]
  · rw [onloadCanvas_none_eq]
  · rw [onloadCanvas_none_eq]
    constructor
    · simp
    · intro r hr
      simp only [List.mem_map, List.mem_range] at hr
      obtain ⟨Y, _, rfl⟩ := hr
      simp
  · intro x y hx hy
    rw [onloadCanvas_none_eq]
    exact pixel_of_table img.width img.height (fun X Y => img.pixel (img.width - 1 - X) Y) x y hx hy
  · intro hrt
    rw [hp]
    simp only [processImage, hrt]
    rw [onloadCanvas_none_twice env img hwf]

theorem processImage_none_mirrors_witness :
    tinyBrowser.decode (Value.str "ab") = some imgAB
      ∧ imgAB.WF
      ∧ tinyBrowser.decode
            (Value.str (tinyBrowser.toDataURL (onloadCanvas tinyBrowser imgAB FilterId.none)))
          = some (onloadCanvas tinyBrowser imgAB FilterId.none)
      ∧ processImage tinyBrowser (Value.str "ab") FilterId.none = Value.str "ba"
      ∧ onloadCanvas tinyBrowser imgAB FilterId.none = imgBA
      ∧ processImage tinyBrowser (processImage tinyBrowser (Value.str "ab") FilterId.none)
          FilterId.none = Value.str "ab" :=
  have h := processImage_none_mirrors tinyBrowser (Value.str "ab") imgAB (by decide) (by decide)
  ⟨by decide, by decide, by decide, h.1.trans (by decide), by decide,
    (h.2.2.2.2.2 (by decide)).trans (by decide)⟩

end Snapshot
